import Mathlib

/-!
Verification development for the WorkerRender offline-first cache and
navigation-coordination engine.

The definitions below are a shallow embedding of the repository source:

* middleware chain executors `compose` and `runMiddleware`
  (packages/core/src/middleware.ts);
* the service-worker stale-while-revalidate coordinator
  (packages/core/src/sw-strategy.ts) together with the IndexedDB-backed
  cache store (packages/core/src/cache.ts) and the version registry
  (packages/core/src/version.ts);
* the client-side `NavigationController` (navigation-controller.ts).

Effectful TypeScript is embedded as explicit state passing; the JavaScript
event loop is single threaded and cooperative, so a synchronous run of a
function body is one atomic transition, and asynchronous continuations
(`finally` handlers, `setTimeout` callbacks) are later transitions in a
recorded trace.
-/

namespace WorkerRender

/-! ## Middleware chain executors (middleware.ts)

A middleware receives a context and a continuation `next`.  The claims
quantify over arbitrary interceptors, so interceptor behaviour is embedded
deeply: an interceptor either calls `next` exactly once and passes the
result through, never calls `next` and returns its own value
(short-circuit), or calls `next` twice (the protocol violation).  The
effect monad is explicit state passing with string-message exceptions,
mirroring JavaScript `throw new Error(...)`: mutations performed before a
throw persist. -/

inductive MWB (α : Type) where
  | passthrough
  | stop (v : α)
  | callTwice
deriving DecidableEq

inductive MWRes (σ α : Type) where
  | ok (a : α) (s : σ)
  | err (e : String) (s : σ)
deriving DecidableEq

/-- A computation in the explicit state-and-exception embedding. -/
def MWComp (σ α : Type) : Type := σ → MWRes σ α

def mwPure {σ α : Type} (a : α) : MWComp σ α := fun s => .ok a s

def mwBind {σ α β : Type} (x : MWComp σ α) (f : α → MWComp σ β) : MWComp σ β :=
  fun s =>
    match x s with
    | .ok a s1 => f a s1
    | .err e s1 => .err e s1

/-- Interpret a deeply embedded interceptor against a continuation.
`passthrough` is `(ctx, next) => next()`; `stop v` never calls `next`;
`callTwice` is `async (ctx, next) => { await next(); return next(); }`. -/
def runMWB {σ α : Type} (b : MWB α) (next : MWComp σ α) : MWComp σ α :=
  match b with
  | .passthrough => next
  | .stop v => mwPure v
  | .callTwice => mwBind next (fun _ => next)

/-- The message of the error thrown by `compose` on a repeated `next()`
(middleware.ts line 140). -/
def protocolMsg : String := "next() called multiple times"

/-- Marker for fuel exhaustion of the embedding; unreachable for the fuel
values used below. -/
def fuelMsg : String := "fuel exhausted"

/-- State of one invocation of the callable returned by `compose`:
the shared mutable `index` cell (middleware.ts line 136, initialised to -1)
plus a count of terminal-loader invocations. -/
structure ComposeSt where
  index : Int
  loaderCalls : Nat
deriving DecidableEq

/-- The terminal loader (the outer `next` given to the composed middleware):
it records its invocation and returns a fixed value. -/
def composeTerminal {α : Type} (v : α) : MWComp ComposeSt α :=
  fun s => .ok v { s with loaderCalls := s.loaderCalls + 1 }

/-- `dispatch(i)` from `compose` (middleware.ts lines 138-151):
if `i <= index` throw `protocolMsg`; else `index := i`; if `i` is past the
end run the terminal, otherwise run interceptor `i` with continuation
`dispatch(i+1)`.  The first `Nat` argument is fuel; `compose` supplies
`mws.length + 1`, which is always sufficient because `i` only grows. -/
def dispatch {α : Type} (mws : List (MWB α)) (v : α) : Nat → Nat → MWComp ComposeSt α
  | 0, _ => fun s => .err fuelMsg s
  | fuel + 1, i => fun s =>
    if (i : Int) ≤ s.index then .err protocolMsg s
    else
      let s1 : ComposeSt := { s with index := (i : Int) }
      match mws[i]? with
      | none => composeTerminal v s1
      | some b => runMWB b (dispatch mws v fuel (i + 1)) s1

/-- Run `compose(...mws)(ctx, terminal)` (middleware.ts lines 134-155):
a fresh `index = -1` cell, then `dispatch(0)`. -/
def composeRun {α : Type} (mws : List (MWB α)) (v : α) (lc0 : Nat) : MWRes ComposeSt α :=
  dispatch mws v (mws.length + 1) 0 { index := -1, loaderCalls := lc0 }

/-- State of one `runMiddleware` call: the shared mutable `index`
(middleware.ts line 165, initialised to 0) and the handler call count. -/
structure RmSt where
  index : Nat
  loaderCalls : Nat
deriving DecidableEq

/-- The final handler passed to `runMiddleware`. -/
def rmHandler {α : Type} (v : α) : MWComp RmSt α :=
  fun s => .ok v { s with loaderCalls := s.loaderCalls + 1 }

/-- The shared `next` closure of `runMiddleware` (middleware.ts lines
167-174): if `index >= middlewares.length` run the handler; otherwise take
`middlewares[index]`, increment `index`, and run it with `next` itself as
continuation.  There is no repeated-call check.  Fuel as in `dispatch`. -/
def rmNext {α : Type} (mws : List (MWB α)) (v : α) : Nat → MWComp RmSt α
  | 0 => fun s => .err fuelMsg s
  | fuel + 1 => fun s =>
    match mws[s.index]? with
    | none => rmHandler v s
    | some b => runMWB b (rmNext mws v fuel) { s with index := s.index + 1 }

/-- Run `runMiddleware(ctx, mws, handler)` (middleware.ts lines 160-177). -/
def runMiddlewareRun {α : Type} (mws : List (MWB α)) (v : α) (lc0 : Nat) : MWRes RmSt α :=
  rmNext mws v (mws.length + 1) { index := 0, loaderCalls := lc0 }

/-- The error message of an execution outcome, `none` on success. -/
def resErr {σ α : Type} : MWRes σ α → Option String
  | .ok _ _ => none
  | .err e _ => some e

/-- Terminal-loader invocation count after a `compose` execution. -/
def composeCalls {α : Type} : MWRes ComposeSt α → Nat
  | .ok _ s => s.loaderCalls
  | .err _ s => s.loaderCalls

/-- Handler invocation count after a `runMiddleware` execution. -/
def rmCalls {α : Type} : MWRes RmSt α → Nat
  | .ok _ s => s.loaderCalls
  | .err _ s => s.loaderCalls

/-! ## Fingerprint generator (sw-strategy.ts `generateETag`)

The primary path digests the serialized payload with SHA-256 (an external
platform primitive, supplied as a function when available), hex-encodes it,
truncates to 16 characters and wraps it in quotes.  The fallback path is the
concrete 32-bit rolling hash of lines 285-291, modelled exactly with
JavaScript int32 wrap-around arithmetic. -/

/-- JavaScript `ToInt32`: reduce modulo 2^32 into the signed range. -/
def toInt32 (x : Int) : Int :=
  let m := x % 4294967296
  if m < 2147483648 then m else m - 4294967296

/-- One iteration of the fallback hash loop:
`hash = ((hash << 5) - hash) + data.charCodeAt(i); hash = hash & hash`. -/
def jsHashStep (h : Int) (c : Nat) : Int :=
  toInt32 (toInt32 (h * 32) - h + c)

/-- The rolling hash over at most the first 1000 characters. -/
def jsHash (s : String) : Int :=
  (s.data.take 1000).foldl (fun h c => jsHashStep h c.toNat) 0

/-- Digit characters for `Number.prototype.toString(36)`. -/
def base36Char (n : Nat) : Char :=
  if n < 10 then Char.ofNat (48 + n) else Char.ofNat (87 + n)

def toBase36Aux : Nat → List Char → List Char
  | 0, acc => acc
  | n + 1, acc => toBase36Aux ((n + 1) / 36) (base36Char ((n + 1) % 36) :: acc)
decreasing_by exact Nat.div_lt_self (Nat.succ_pos n) (by decide)

/-- `Math.abs(hash).toString(36)`. -/
def natToBase36 (n : Nat) : String :=
  if n = 0 then "0" else String.mk (toBase36Aux n [])

/-- `generateETag` (sw-strategy.ts lines 271-292).  `cryptoDigest` is the
hex-encoded SHA-256 primitive when `crypto.subtle` is available. -/
def generateETag (cryptoDigest : Option (String → String)) (data : String) : String :=
  match cryptoDigest with
  | some digest => "\"" ++ (digest data).take 16 ++ "\""
  | none => "\"" ++ natToBase36 (jsHash data).natAbs ++ "-" ++ toString data.length ++ "\""

/-! ## Cache store (cache.ts) and version registry (version.ts)

IndexedDB is an external collaborator; its `routes` object store with
`keyPath: 'url'` is modelled as an association list from url to row, where
`put` overwrites the row with the same url and `get` looks the url up. -/

/-- A persisted row (cache.ts lines 6-12).  `etag` is optional. -/
structure CachedRoute (Data : Type) where
  url : String
  data : Data
  version : String
  timestamp : Nat
  etag : Option String
deriving DecidableEq

/-- The `routes` object store. -/
abbrev CacheStore (Data : Type) : Type := List (String × CachedRoute Data)

/-- `store.put(row)` with `keyPath: 'url'`: overwrite any row for that url. -/
def idbPut {Data : Type} (store : CacheStore Data) (row : CachedRoute Data) : CacheStore Data :=
  (row.url, row) :: store.filter (fun p => !(p.1 == row.url))

/-- `store.get(url)`. -/
def idbGet {Data : Type} (store : CacheStore Data) (url : String) : Option (CachedRoute Data) :=
  (store.find? (fun p => p.1 == url)).map (fun p => p.2)

/-- `cacheRouteData(url, data, version, etag)` (cache.ts lines 64-89):
build the row with `timestamp: Date.now()` and `put` it; completion means
the write transaction committed. -/
def cacheRouteData {Data : Type} (store : CacheStore Data) (url : String) (data : Data)
    (version : String) (etag : Option String) (now : Nat) : CacheStore Data :=
  idbPut store { url := url, data := data, version := version, timestamp := now, etag := etag }

/-- `getCachedRouteData(url)` (cache.ts lines 94-103). -/
def getCachedRouteData {Data : Type} (store : CacheStore Data) (url : String) :
    Option (CachedRoute Data) :=
  idbGet store url

/-- Delete the row for a url (used to compare a read against a physically
absent row). -/
def eraseEntry {Data : Type} (store : CacheStore Data) (url : String) : CacheStore Data :=
  store.filter (fun p => !(p.1 == url))

/-- The environment of the service-worker coordinator: everything the code
reads from the platform or from external collaborators. -/
structure SWEnv (Data : Type) where
  /-- `navigator.onLine`. -/
  online : Bool
  /-- The settled outcome of the loader run (through `runMiddleware` and
  `runLoaderWithTimeout`); `error` covers both rejection and the 30 s
  timeout losing the race. -/
  loaderResult : Except String Data
  /-- `JSON.stringify`. -/
  serialize : Data → String
  /-- hex SHA-256 when `crypto.subtle` is available. -/
  cryptoDigest : Option (String → String)
  /-- `Date.now()` at the store write. -/
  now : Nat
  /-- the injected `__APP_VERSION__` build variable, if defined. -/
  appVersion : Option String
  /-- the external renderer `render(payload) -> markup`. -/
  renderFn : Data → String

/-- `getAppVersion()` (version.ts lines 27-34): injected build variable or
the `APP_VERSION = '1.0.0'` fallback constant. -/
def getAppVersion {Data : Type} (env : SWEnv Data) : String :=
  env.appVersion.getD ("1.0.0")

/-- `isVersionCompatible(cachedVersion)` (version.ts lines 39-41):
strict equality with the current version. -/
def isVersionCompatible {Data : Type} (env : SWEnv Data) (cachedVersion : String) : Bool :=
  cachedVersion == getAppVersion env

/-! ## Render strategy coordinator (sw-strategy.ts) -/

/-- Observable world state of the serving context: the
`pendingRevalidations` dedup map (keys with a live ticket), the cache
store, the messages posted through the client notification channel, and
the number of loader invocations. -/
structure SWState (Data : Type) where
  pendingRevalidations : List String
  store : CacheStore Data
  notifications : List (String × Data)
  loaderCalls : Nat
deriving DecidableEq

/-- `pendingRevalidations.set(key, promise)`. -/
def addTicket {Data : Type} (key : String) (s : SWState Data) : SWState Data :=
  { s with pendingRevalidations := key :: s.pendingRevalidations }

/-- `pendingRevalidations.delete(key)`. -/
def removeTicket {Data : Type} (key : String) (s : SWState Data) : SWState Data :=
  { s with pendingRevalidations := s.pendingRevalidations.filter (fun x => !(x == key)) }

/-- `revalidateInBackground(route, ctx, cacheKey, version, cachedEtag)`
(sw-strategy.ts lines 181-239), as the ordered trace of world states it
visits.  The JavaScript execution order is preserved:

1. if the dedup map has the key, return immediately (lines 189-192) —
   trace `[s0]`;
2. otherwise the async IIFE runs up to its first suspension: offline guard
   (line 198), then loader invocation (line 206);
3. the ticket is registered unconditionally (line 235) — also when the
   guard at line 198 already returned;
4. on loader success the fresh fingerprint is compared with `cachedEtag`
   (line 218); on inequality the store is rewritten (line 220) and the
   notification channel invoked once (line 224);
5. the `finally` handler removes the ticket when the refresh settles
   (lines 236-238). -/
def revalidateSteps {Data : Type} (env : SWEnv Data) (key version : String)
    (cachedEtag : Option String) (s0 : SWState Data) : List (SWState Data) :=
  if s0.pendingRevalidations.contains key then [s0]
  else if env.online then
    match env.loaderResult with
    | .error _ =>
      let s1 := { s0 with loaderCalls := s0.loaderCalls + 1 }
      let s2 := addTicket key s1
      [s0, s1, s2, removeTicket key s2]
    | .ok d =>
      let s1 := { s0 with loaderCalls := s0.loaderCalls + 1 }
      let s2 := addTicket key s1
      let freshEtag := generateETag env.cryptoDigest (env.serialize d)
      if cachedEtag ≠ some freshEtag then
        let s3 := { s2 with store := cacheRouteData s2.store key d version (some freshEtag) env.now }
        let s4 := { s3 with notifications := s3.notifications ++ [(key, d)] }
        [s0, s1, s2, s3, s4, removeTicket key s4]
      else
        [s0, s1, s2, removeTicket key s2]
  else
    let s1 := addTicket key s0
    [s0, s1, removeTicket key s1]

/-- The world state once the background refresh has settled. -/
def revalidateFinal {Data : Type} (env : SWEnv Data) (key version : String)
    (cachedEtag : Option String) (s0 : SWState Data) : SWState Data :=
  (revalidateSteps env key version cachedEtag s0).getLastD s0

/-- The response produced by the coordinator, with its metadata headers. -/
structure SWResponse (Data : Type) where
  body : String
  status : Nat
  xCache : String
  xCacheVersion : Option String
  versionHeader : Option String
  etag : Option String
deriving DecidableEq

/-- `fetchAndCache(route, ctx, cacheKey, version, renderFn)`
(sw-strategy.ts lines 134-173): run the loader; on success fingerprint,
store and respond with `x-cache: MISS`; on failure propagate the error
(the loader was still invoked). -/
def fetchAndCache {Data : Type} (env : SWEnv Data) (key version : String)
    (s : SWState Data) : Except String (SWResponse Data) × SWState Data :=
  let s1 := { s with loaderCalls := s.loaderCalls + 1 }
  match env.loaderResult with
  | .error e => (.error e, s1)
  | .ok d =>
    let etag := generateETag env.cryptoDigest (env.serialize d)
    let s2 := { s1 with store := cacheRouteData s1.store key d version (some etag) env.now }
    (.ok { body := env.renderFn d, status := 200, xCache := "MISS", xCacheVersion := none,
           versionHeader := some version, etag := some etag }, s2)

/-- `renderWithCache(route, ctx, renderFn)` (sw-strategy.ts lines 84-129):
look the key up; if a row exists and its version is compatible, serve it
immediately with `x-cache: HIT` and trigger the background revalidation
(the returned state is the world once that refresh has settled); otherwise
fall through to `fetchAndCache`. -/
def renderWithCache {Data : Type} (env : SWEnv Data) (key : String)
    (s : SWState Data) : Except String (SWResponse Data) × SWState Data :=
  match getCachedRouteData s.store key with
  | some cached =>
    if isVersionCompatible env cached.version then
      (.ok { body := env.renderFn cached.data, status := 200, xCache := "HIT",
             xCacheVersion := some cached.version, versionHeader := none, etag := cached.etag },
       revalidateFinal env key (getAppVersion env) cached.etag s)
    else fetchAndCache env key (getAppVersion env) s
  | none => fetchAndCache env key (getAppVersion env) s

/-! ## Navigation controller (navigation-controller.ts)

Promises and `AbortController`s are modelled by identifiers allocated from
a counter, so "the same promise" is identifier equality.  `normalizeUrl`
wraps the platform `URL` parser and is an external collaborator, passed as
a function.  A `navigate` call is one atomic transition: its body runs
synchronously up to returning the promise (`performNavigation` starts its
`fetch` before the first `await`, so the fetch start is part of the same
transition). -/

/-- Options of `navigate(url, options)`.  `skipHistory` is never read by
`navigate` and `signal` only forwards an external abort, so only
`replace` is modelled. -/
structure NavOptions where
  replace : Bool := false
deriving DecidableEq

/-- Observable state of a `NavigationController` instance:
the `pending` map (normalized url to promise id), the `activeRequests` map
(normalized url to abort-controller id), the history ring, the id
allocator, the urls whose navigation fetch was started, and the ids of
aborted controllers. -/
structure NavState where
  pending : List (String × Nat)
  activeRequests : List (String × Nat)
  navigationHistory : List String
  nextId : Nat
  fetchesStarted : List String
  aborted : List Nat
deriving DecidableEq

/-- Map lookup on an association list (first binding wins, as in `Map`). -/
def navLookup (m : List (String × Nat)) (k : String) : Option Nat :=
  (m.find? (fun p => p.1 == k)).map (fun p => p.2)

/-- `maxHistorySize` (navigation-controller.ts line 115). -/
def maxHistorySize : Nat := 50

/-- `addToHistory` (lines 355-362): push, then keep the newest
`maxHistorySize` entries (`slice(-maxHistorySize)`). -/
def addToHistory (h : List String) (url : String) : List String :=
  let h1 := h ++ [url]
  if h1.length > maxHistorySize then h1.drop (h1.length - maxHistorySize) else h1

/-- `cancelAll()` (lines 300-308): abort every controller in
`activeRequests`, then clear both maps. -/
def cancelAll (s : NavState) : NavState :=
  { s with aborted := s.aborted ++ s.activeRequests.map (fun p => p.2),
           activeRequests := [], pending := [] }

/-- `navigate(url, options)` (lines 142-177), returning the promise id and
the state after the synchronous part of the call:

1. normalize the url;
2. if `pending` has the normalized url, return that very promise
   unchanged (lines 146-149);
3. else, if `options.replace`, `cancelAll()` (lines 152-154);
4. allocate the abort controller and the navigation promise
   (`performNavigation` starts, issuing the fetch), record both maps, and
   append to the history (lines 157-176). -/
def navigate (normalize : String → String) (url : String) (opts : NavOptions)
    (s : NavState) : Nat × NavState :=
  let n := normalize url
  match navLookup s.pending n with
  | some p => (p, s)
  | none =>
    let sa := if opts.replace then cancelAll s else s
    let cid := sa.nextId
    let pid := sa.nextId + 1
    let sb := { sa with nextId := sa.nextId + 2,
                        fetchesStarted := sa.fetchesStarted ++ [n],
                        pending := (n, pid) :: sa.pending,
                        activeRequests := (n, cid) :: sa.activeRequests }
    (pid, { sb with navigationHistory := addToHistory sb.navigationHistory n })

/-! ### Prefetch eviction timing (lines 246-280)

`prefetch(url)` registers its promise in the same `pending` map.  The
eviction `setTimeout(..., 5000)` is started inside the `.finally()`
handler, i.e. when the prefetch fetch settles; the timer callback deletes
the entry provided the map still holds that same promise.  For a single
undisturbed prefetch this yields three timed events, interpreted below to
answer whether the entry is in the map at a given instant. -/

inductive PrefetchEv where
  | set
  | settle
  | evict
deriving DecidableEq

/-- The timed events of one prefetch whose fetch settles `latency`
milliseconds after the call at `t0`: the map insert at `t0` (line 279),
the settlement at `t0 + latency` running `.finally()` (line 270), and the
eviction timer firing 5000 ms later (lines 272-276). -/
def prefetchEvents (t0 latency : Nat) : List (Nat × PrefetchEv) :=
  [(t0, PrefetchEv.set), (t0 + latency, PrefetchEv.settle), (t0 + latency + 5000, PrefetchEv.evict)]

/-- Effect of one event on map membership of the prefetch entry.  The
`evict` case may fire unconditionally here because in a single undisturbed
run the identity check `pending.get(url) === prefetchPromise` holds. -/
def prefetchApply (inMap : Bool) : PrefetchEv → Bool
  | .set => true
  | .settle => inMap
  | .evict => false

/-- Whether the prefetch entry is in the pending map at instant `t`. -/
def prefetchPendingAt (t0 latency t : Nat) : Bool :=
  (prefetchEvents t0 latency).foldl (fun b e => if e.1 ≤ t then prefetchApply b e.2 else b) false

/-! ## Concrete fixtures for witnesses and counterexamples -/

/-- An online environment over string payloads, with the crypto primitive
unavailable (so the concrete fallback fingerprint path runs). -/
def envOn : SWEnv String :=
  { online := true, loaderResult := Except.ok ("fresh"), serialize := fun d => d,
    cryptoDigest := none, now := 42, appVersion := some ("B"), renderFn := fun d => d }

/-- The same environment reporting offline. -/
def envOff : SWEnv String :=
  { envOn with online := false }

/-- An empty serving-context world. -/
def swEmpty : SWState String :=
  { pendingRevalidations := [], store := [], notifications := [], loaderCalls := 0 }

/-- A world whose store holds one row for key `k`, stored under
version `A` with no fingerprint. -/
def swWithRow : SWState String :=
  { swEmpty with store := [("k", { url := "k", data := "old", version := "A", timestamp := 7, etag := none })] }

/-- A serving-context world in which a revalidation ticket for key `k` is
already live. -/
def swPendingK : SWState String :=
  { pendingRevalidations := ["k"], store := [], notifications := [], loaderCalls := 0 }

/-- A navigation-controller state with two pending navigations. -/
def navTwoPending : NavState :=
  { pending := [("a", 1), ("b", 2)], activeRequests := [("a", 10), ("b", 20)],
    navigationHistory := [], nextId := 30, fetchesStarted := [], aborted := [] }

/-! ## Helper lemmas -/

/-- Invariant of `compose`'s `dispatch`: run from a state whose stored
index is below the requested position with adequate fuel, a successful
outcome leaves the index at or beyond the position, every error carries
the protocol message, and the terminal loader is invoked at most once. -/
theorem dispatch_invariant {α : Type} (mws : List (MWB α)) (v : α) :
    ∀ fuel i s, i ≤ mws.length → fuel = mws.length + 1 - i → s.index < (i : Int) →
      (∀ a s1, dispatch mws v fuel i s = .ok a s1 →
        (i : Int) ≤ s1.index ∧ s1.loaderCalls ≤ s.loaderCalls + 1) ∧
      (∀ e s1, dispatch mws v fuel i s = .err e s1 →
        e = protocolMsg ∧ s1.loaderCalls ≤ s.loaderCalls + 1) := by
  intro fuel
  induction fuel with
  | zero =>
    intro i s hi hf _
    exfalso
    omega
  | succ fuel ih =>
    intro i s hi hf hidx
    have hnotle : ¬ ((i : Int) ≤ s.index) := not_le.mpr hidx
    cases hG : mws[i]? with
    | none =>
      constructor
      · intro a s1 hok
        simp only [dispatch, if_neg hnotle, hG, composeTerminal, MWRes.ok.injEq] at hok
        obtain ⟨rfl, rfl⟩ := hok
        exact ⟨le_refl _, Nat.le_refl _⟩
      · intro e s1 herr
        simp only [dispatch, if_neg hnotle, hG, composeTerminal] at herr
        exact MWRes.noConfusion herr
    | some b =>
      have hilt : i < mws.length := by
        by_contra hc
        push_neg at hc
        rw [List.getElem?_eq_none hc] at hG
        exact Option.noConfusion hG
      have hidx1 : ({ s with index := (i : Int) } : ComposeSt).index < ((i + 1 : Nat) : Int) := by
        push_cast
        omega
      have hrec := ih (i + 1) { s with index := (i : Int) } (by omega) (by omega) hidx1
      cases b with
      | passthrough =>
        constructor
        · intro a s1 hok
          simp only [dispatch, if_neg hnotle, hG, runMWB] at hok
          have h1 := hrec.1 a s1 hok
          constructor
          · have := h1.1
            push_cast at this ⊢
            omega
          · exact h1.2
        · intro e s1 herr
          simp only [dispatch, if_neg hnotle, hG, runMWB] at herr
          exact hrec.2 e s1 herr
      | stop v2 =>
        constructor
        · intro a s1 hok
          simp only [dispatch, if_neg hnotle, hG, runMWB, mwPure, MWRes.ok.injEq] at hok
          obtain ⟨rfl, rfl⟩ := hok
          exact ⟨le_refl _, Nat.le_succ _⟩
        · intro e s1 herr
          simp only [dispatch, if_neg hnotle, hG, runMWB, mwPure] at herr
          exact MWRes.noConfusion herr
      | callTwice =>
        constructor
        · intro a s1 hok
          simp only [dispatch, if_neg hnotle, hG, runMWB, mwBind] at hok
          cases hd1 : dispatch mws v fuel (i + 1) { s with index := (i : Int) } with
          | ok a2 s2 =>
            simp only [hd1] at hok
            have h1 := hrec.1 a2 s2 hd1
            obtain ⟨f, rfl⟩ : ∃ f, fuel = f + 1 := ⟨fuel - 1, by omega⟩
            simp only [dispatch, if_pos h1.1] at hok
            exact MWRes.noConfusion hok
          | err e2 s2 =>
            simp only [hd1] at hok
            exact MWRes.noConfusion hok
        · intro e s1 herr
          simp only [dispatch, if_neg hnotle, hG, runMWB, mwBind] at herr
          cases hd1 : dispatch mws v fuel (i + 1) { s with index := (i : Int) } with
          | ok a2 s2 =>
            simp only [hd1] at herr
            have h1 := hrec.1 a2 s2 hd1
            obtain ⟨f, rfl⟩ : ∃ f, fuel = f + 1 := ⟨fuel - 1, by omega⟩
            simp only [dispatch, if_pos h1.1, MWRes.err.injEq] at herr
            obtain ⟨rfl, rfl⟩ := herr
            exact ⟨rfl, h1.2⟩
          | err e2 s2 =>
            simp only [hd1, MWRes.err.injEq] at herr
            obtain ⟨he, hs⟩ := herr
            subst he
            subst hs
            exact hrec.2 _ _ hd1


/-- If execution reaches an interceptor that calls its continuation twice
(every interceptor before it passes through), `compose`'s dispatcher
cannot succeed: it throws the protocol error, with the terminal loader
invoked at most once. -/
theorem compose_reaches_double {α : Type} (v : α) :
    ∀ (pre : List (MWB α)), (∀ b ∈ pre, b = MWB.passthrough) →
    ∀ (mws post : List (MWB α)) (i : Nat) (s : ComposeSt),
      mws.drop i = pre ++ MWB.callTwice :: post →
      s.index < (i : Int) →
      (∀ a s1, dispatch mws v (mws.length + 1 - i) i s = .ok a s1 → False) ∧
      (∀ e s1, dispatch mws v (mws.length + 1 - i) i s = .err e s1 →
        e = protocolMsg ∧ s1.loaderCalls ≤ s.loaderCalls + 1) := by
  intro pre
  induction pre with
  | nil =>
    intro _ mws post i s hdrop hidx
    have hlen : mws.length - i = post.length + 1 := by
      have h := congrArg List.length hdrop
      simpa using h
    have hilt : i < mws.length := by omega
    have hG : mws[i]? = some MWB.callTwice := by
      have h0 : (mws.drop i)[0]? = some MWB.callTwice := by rw [hdrop]; simp
      rw [List.getElem?_drop] at h0
      simpa using h0
    have hnotle : ¬ ((i : Int) ≤ s.index) := not_le.mpr hidx
    have hidx1 : ({ s with index := (i : Int) } : ComposeSt).index < ((i + 1 : Nat) : Int) := by
      push_cast
      omega
    obtain ⟨f, hf1, hf2⟩ : ∃ f, mws.length + 1 - i = f + 1 ∧ f = mws.length + 1 - (i + 1) :=
      ⟨mws.length - i, by omega⟩
    have hrec := dispatch_invariant mws v f (i + 1) { s with index := (i : Int) }
      (by omega) hf2 hidx1
    constructor
    · intro a s1 hok
      rw [hf1] at hok
      simp only [dispatch, if_neg hnotle, hG, runMWB, mwBind] at hok
      cases hd1 : dispatch mws v f (i + 1) { s with index := (i : Int) } with
      | ok a2 s2 =>
        simp only [hd1] at hok
        have h1 := hrec.1 a2 s2 hd1
        obtain ⟨g, rfl⟩ : ∃ g, f = g + 1 := ⟨f - 1, by omega⟩
        simp only [dispatch, if_pos h1.1] at hok
        exact MWRes.noConfusion hok
      | err e2 s2 =>
        simp only [hd1] at hok
        exact MWRes.noConfusion hok
    · intro e s1 herr
      rw [hf1] at herr
      simp only [dispatch, if_neg hnotle, hG, runMWB, mwBind] at herr
      cases hd1 : dispatch mws v f (i + 1) { s with index := (i : Int) } with
      | ok a2 s2 =>
        simp only [hd1] at herr
        have h1 := hrec.1 a2 s2 hd1
        obtain ⟨g, rfl⟩ : ∃ g, f = g + 1 := ⟨f - 1, by omega⟩
        simp only [dispatch, if_pos h1.1, MWRes.err.injEq] at herr
        obtain ⟨he, hs⟩ := herr
        subst he
        subst hs
        exact ⟨rfl, h1.2⟩
      | err e2 s2 =>
        simp only [hd1, MWRes.err.injEq] at herr
        obtain ⟨he, hs⟩ := herr
        subst he
        subst hs
        exact hrec.2 _ _ hd1
  | cons b pre ih =>
    intro hpass mws post i s hdrop hidx
    have hb : b = MWB.passthrough := hpass b (List.mem_cons_self b pre)
    subst hb
    have hlen : mws.length - i = pre.length + post.length + 2 := by
      have h := congrArg List.length hdrop
      simp at h
      omega
    have hilt : i < mws.length := by omega
    have hG : mws[i]? = some MWB.passthrough := by
      have h0 : (mws.drop i)[0]? = some MWB.passthrough := by rw [hdrop]; simp
      rw [List.getElem?_drop] at h0
      simpa using h0
    have hdrop1 : mws.drop (i + 1) = pre ++ MWB.callTwice :: post := by
      rw [← List.tail_drop, hdrop]
      simp
    have hnotle : ¬ ((i : Int) ≤ s.index) := not_le.mpr hidx
    have hidx1 : ({ s with index := (i : Int) } : ComposeSt).index < ((i + 1 : Nat) : Int) := by
      push_cast
      omega
    obtain ⟨f, hf1, hf2⟩ : ∃ f, mws.length + 1 - i = f + 1 ∧ f = mws.length + 1 - (i + 1) :=
      ⟨mws.length - i, by omega⟩
    have hih := ih (fun x hx => hpass x (List.mem_cons_of_mem _ hx)) mws post (i + 1)
      { s with index := (i : Int) } hdrop1 hidx1
    rw [← hf2] at hih
    constructor
    · intro a s1 hok
      rw [hf1] at hok
      simp only [dispatch, if_neg hnotle, hG, runMWB] at hok
      exact hih.1 a s1 hok
    · intro e s1 herr
      rw [hf1] at herr
      simp only [dispatch, if_neg hnotle, hG, runMWB] at herr
      exact hih.2 e s1 herr

/-! ## Claim theorems -/

/-- C1: the claim asserts that a double `next()` makes BOTH chain
executors fail fast with a ProtocolError, never invoking the terminal
loader a second time.  This is false for `runMiddleware`: with a single
interceptor that calls `next()` twice, `runMiddleware` completes
successfully (no error) and the terminal handler runs twice. -/
theorem c1_counterexample :
    resErr (runMiddlewareRun [MWB.callTwice] (0 : Nat) 0) = none ∧
    rmCalls (runMiddlewareRun [MWB.callTwice] (0 : Nat) 0) = 2 := by
  decide

/-- C1 (amended): in any chain executed by `compose` in which an
interceptor that calls `next()` twice is reached (all interceptors before
it pass through; those after it are arbitrary), the execution fails fast
with the protocol error `next() called multiple times` and the terminal
loader is invoked at most once.  `runMiddleware` has no such guard: a
double-calling interceptor makes the terminal handler run a second time
with no error. -/
theorem c1_theorem :
    (∀ (pre post : List (MWB Nat)) (v lc0 : Nat), (∀ b ∈ pre, b = MWB.passthrough) →
      resErr (composeRun (pre ++ MWB.callTwice :: post) v lc0) = some protocolMsg ∧
      composeCalls (composeRun (pre ++ MWB.callTwice :: post) v lc0) ≤ lc0 + 1) ∧
    (∀ (v lc0 : Nat), runMiddlewareRun [MWB.callTwice] v lc0 =
      MWRes.ok v { index := 1, loaderCalls := lc0 + 2 }) := by
  constructor
  · intro pre post v lc0 hpass
    have hA := compose_reaches_double v pre hpass (pre ++ MWB.callTwice :: post) post 0
      { index := -1, loaderCalls := lc0 } (by rfl) (by norm_num)
    cases hres : composeRun (pre ++ MWB.callTwice :: post) v lc0 with
    | ok a s1 => exact absurd hres (fun h => hA.1 a s1 h)
    | err e s1 =>
      have h2 := hA.2 e s1 hres
      simp only [resErr, composeCalls]
      exact ⟨congrArg some h2.1, h2.2⟩
  · intro v lc0
    rfl

/-- C1 witness: a concrete two-interceptor chain in which the second
interceptor calls `next()` twice; `compose` raises the protocol error and
the loader runs at most once. -/
theorem c1_witness :
    resErr (composeRun [MWB.passthrough, MWB.callTwice] (5 : Nat) 0) = some protocolMsg ∧
    composeCalls (composeRun [MWB.passthrough, MWB.callTwice] (5 : Nat) 0) ≤ 0 + 1 := by
  have h := c1_theorem.1 [MWB.passthrough] [] 5 0 (by
    intro b hb
    simpa using hb)
  simpa using h

/-- A key absent from a list of strings is untouched by the filter that
deletes it. -/
theorem filter_bne_of_not_mem (l : List String) (k : String) (h : k ∉ l) :
    l.filter (fun x => !(x == k)) = l := by
  apply List.filter_eq_self.mpr
  intro a ha
  simp only [Bool.not_eq_true', beq_eq_false_iff_ne]
  intro hak
  exact h (hak ▸ ha)

/-- Removing a ticket that was just added to a world not holding it
restores the world. -/
theorem removeTicket_addTicket {Data : Type} (key : String) (s : SWState Data)
    (h : s.pendingRevalidations.contains key = false) :
    removeTicket key (addTicket key s) = s := by
  have hmem : key ∉ s.pendingRevalidations := by simpa using h
  simp [removeTicket, addTicket, filter_bne_of_not_mem _ _ hmem]

/-- A fingerprint produced by `generateETag` is never the empty string:
both paths wrap their digest in quote characters. -/
theorem generateETag_ne_empty (d : Option (String → String)) (s : String) :
    generateETag d s ≠ "" := by
  cases d with
  | none =>
    intro h
    have h2 := congrArg String.length h
    simp only [generateETag, String.length_append] at h2
    have h3 : ("\"" : String).length = 1 := rfl
    have h4 : ("" : String).length = 0 := rfl
    omega
  | some f =>
    intro h
    have h2 := congrArg String.length h
    simp only [generateETag, String.length_append] at h2
    have h3 : ("\"" : String).length = 1 := rfl
    have h4 : ("" : String).length = 0 := rfl
    omega

/-- After deleting the row for a key, a direct lookup of that key misses. -/
theorem getCachedRouteData_eraseEntry {Data : Type} (store : CacheStore Data) (key : String) :
    getCachedRouteData (eraseEntry store key) key = none := by
  have hfind : (eraseEntry store key).find? (fun p => p.1 == key) = none := by
    apply List.find?_eq_none.mpr
    intro p hp
    simp only [eraseEntry, List.mem_filter, Bool.not_eq_true'] at hp
    simp [hp.2]
  simp [getCachedRouteData, idbGet, hfind]

/-- C2: a call to `revalidateInBackground` for a key that already has a
pending revalidation returns immediately: the trace is the single initial
state, so the loader is not run and no second ticket is registered. -/
theorem c2_theorem {Data : Type} (env : SWEnv Data) (key version : String)
    (cachedEtag : Option String) (s0 : SWState Data)
    (h : s0.pendingRevalidations.contains key = true) :
    revalidateSteps env key version cachedEtag s0 = [s0] ∧
    revalidateFinal env key version cachedEtag s0 = s0 := by
  have hmem : key ∈ s0.pendingRevalidations := by simpa using h
  constructor
  · simp [revalidateSteps, hmem]
  · simp [revalidateFinal, revalidateSteps, hmem]

/-- C2 witness: with a live ticket for key `k`, a second trigger is a
no-op. -/
theorem c2_witness :
    swPendingK.pendingRevalidations.contains ("k") = true ∧
    revalidateSteps envOn ("k") ("B") none swPendingK = [swPendingK] ∧
    revalidateFinal envOn ("k") ("B") none swPendingK = swPendingK :=
  ⟨by decide, (c2_theorem envOn ("k") ("B") none swPendingK (by decide)).1,
    (c2_theorem envOn ("k") ("B") none swPendingK (by decide)).2⟩

/-- C4: the claim states that with the environment offline no ticket is
ever registered during the invocation.  In the code the offline guard only
short-circuits the async body; `pendingRevalidations.set` at line 235 runs
unconditionally, so the trace of an offline invocation does contain a
state whose map holds the key. -/
theorem c4_counterexample :
    envOff.online = false ∧
    swEmpty.pendingRevalidations.contains ("k") = false ∧
    ((revalidateSteps envOff ("k") ("B") none swEmpty).any
      (fun st => st.pendingRevalidations.contains ("k"))) = true := by
  decide

/-- C4 (amended): when the environment is offline, a triggered background
refresh aborts without running the loader, writing the store, or
notifying, and the ticket map returns to its initial state once the
refresh settles; however a ticket for the key IS transiently registered
(and then removed by the completion handler). -/
theorem c4_theorem {Data : Type} (env : SWEnv Data) (key version : String)
    (cachedEtag : Option String) (s0 : SWState Data)
    (hoff : env.online = false) (hnp : s0.pendingRevalidations.contains key = false) :
    revalidateFinal env key version cachedEtag s0 = s0 ∧
    (revalidateSteps env key version cachedEtag s0).any
      (fun st => st.pendingRevalidations.contains key) = true ∧
    ∀ st ∈ revalidateSteps env key version cachedEtag s0,
      st.loaderCalls = s0.loaderCalls ∧ st.store = s0.store ∧
      st.notifications = s0.notifications := by
  have hmem : key ∉ s0.pendingRevalidations := by simpa using hnp
  have hsteps : revalidateSteps env key version cachedEtag s0 =
      [s0, addTicket key s0, removeTicket key (addTicket key s0)] := by
    simp [revalidateSteps, hmem, hoff]
  have hrt := removeTicket_addTicket key s0 hnp
  refine ⟨?_, ?_, ?_⟩
  · rw [revalidateFinal, hsteps, hrt]
    rfl
  · rw [hsteps]
    simp [addTicket]
  · rw [hsteps, hrt]
    intro st hst
    simp only [List.mem_cons, List.not_mem_nil, or_false] at hst
    rcases hst with rfl | rfl | rfl
    · exact ⟨rfl, rfl, rfl⟩
    · exact ⟨rfl, rfl, rfl⟩
    · exact ⟨rfl, rfl, rfl⟩

/-- C4 witness: a concrete offline invocation aborts cleanly yet its trace
shows the transient ticket. -/
theorem c4_witness :
    envOff.online = false ∧
    swEmpty.pendingRevalidations.contains ("k") = false ∧
    (revalidateFinal envOff ("k") ("B") none swEmpty = swEmpty ∧
      (revalidateSteps envOff ("k") ("B") none swEmpty).any
        (fun st => st.pendingRevalidations.contains ("k")) = true) :=
  ⟨rfl, by decide,
    (c4_theorem envOff ("k") ("B") none swEmpty rfl (by decide)).1,
    (c4_theorem envOff ("k") ("B") none swEmpty rfl (by decide)).2.1⟩

/-- C5: for a background refresh whose loader succeeds against a stale
entry with stored fingerprint `F`: the store is rewritten and the
notification channel invoked exactly once with the new payload iff the
fresh fingerprint differs from `F`; when they are equal, neither the
store (hence `storedAt`) nor the notification list changes. -/
theorem c5_theorem {Data : Type} (env : SWEnv Data) (key version F : String)
    (s0 : SWState Data) (d : Data)
    (hon : env.online = true) (hld : env.loaderResult = Except.ok d)
    (hnp : s0.pendingRevalidations.contains key = false) :
    (generateETag env.cryptoDigest (env.serialize d) ≠ F →
      (revalidateFinal env key version (some F) s0).store =
        cacheRouteData s0.store key d version
          (some (generateETag env.cryptoDigest (env.serialize d))) env.now ∧
      (revalidateFinal env key version (some F) s0).notifications =
        s0.notifications ++ [(key, d)]) ∧
    (generateETag env.cryptoDigest (env.serialize d) = F →
      (revalidateFinal env key version (some F) s0).store = s0.store ∧
      (revalidateFinal env key version (some F) s0).notifications = s0.notifications) := by
  have hmem : key ∉ s0.pendingRevalidations := by simpa using hnp
  constructor
  · intro hne
    have hcond : some F ≠ some (generateETag env.cryptoDigest (env.serialize d)) := by
      simp only [ne_eq, Option.some.injEq]
      intro h
      exact hne h.symm
    constructor
    · simp [revalidateFinal, revalidateSteps, hmem, hon, hld, hcond, removeTicket, addTicket]
    · simp [revalidateFinal, revalidateSteps, hmem, hon, hld, hcond, removeTicket, addTicket]
  · intro heq
    have hcond : ¬ (some F ≠ some (generateETag env.cryptoDigest (env.serialize d))) := by
      simp [heq]
    constructor
    · simp [revalidateFinal, revalidateSteps, hmem, hon, hld, hcond, removeTicket, addTicket]
    · simp [revalidateFinal, revalidateSteps, hmem, hon, hld, hcond, removeTicket, addTicket]

/-- C5 witness: concrete refresh with a differing stored fingerprint:
store rewritten and exactly one notification appended. -/
theorem c5_witness :
    envOn.online = true ∧
    envOn.loaderResult = Except.ok ("fresh") ∧
    swEmpty.pendingRevalidations.contains ("k") = false ∧
    generateETag envOn.cryptoDigest (envOn.serialize ("fresh")) ≠ ("nope") ∧
    ((revalidateFinal envOn ("k") ("B") (some ("nope")) swEmpty).store =
      cacheRouteData swEmpty.store ("k") ("fresh") ("B")
        (some (generateETag envOn.cryptoDigest (envOn.serialize ("fresh")))) envOn.now ∧
     (revalidateFinal envOn ("k") ("B") (some ("nope")) swEmpty).notifications =
      swEmpty.notifications ++ [(("k"), ("fresh"))]) :=
  ⟨rfl, rfl, by decide, by decide,
    (c5_theorem envOn ("k") ("B") ("nope") swEmpty ("fresh") rfl rfl (by decide)).1 (by decide)⟩

/-- C10: when the cached entry has no stored fingerprint (etag absent), a
successful background refresh always rewrites the entry and notifies,
because the freshly computed fingerprint (a non-empty string) never
equals the absent one. -/
theorem c10_theorem {Data : Type} (env : SWEnv Data) (key version : String)
    (s0 : SWState Data) (d : Data)
    (hon : env.online = true) (hld : env.loaderResult = Except.ok d)
    (hnp : s0.pendingRevalidations.contains key = false) :
    (revalidateFinal env key version none s0).store =
      cacheRouteData s0.store key d version
        (some (generateETag env.cryptoDigest (env.serialize d))) env.now ∧
    (revalidateFinal env key version none s0).notifications =
      s0.notifications ++ [(key, d)] ∧
    generateETag env.cryptoDigest (env.serialize d) ≠ "" := by
  have hmem : key ∉ s0.pendingRevalidations := by simpa using hnp
  refine ⟨?_, ?_, generateETag_ne_empty _ _⟩
  · simp [revalidateFinal, revalidateSteps, hmem, hon, hld, removeTicket, addTicket]
  · simp [revalidateFinal, revalidateSteps, hmem, hon, hld, removeTicket, addTicket]

/-- C10 witness: concrete refresh over an entry with absent fingerprint:
rewrite and notification happen even though the payload is unchanged in
content. -/
theorem c10_witness :
    envOn.online = true ∧
    envOn.loaderResult = Except.ok ("fresh") ∧
    swEmpty.pendingRevalidations.contains ("k") = false ∧
    ((revalidateFinal envOn ("k") ("B") none swEmpty).store =
      cacheRouteData swEmpty.store ("k") ("fresh") ("B")
        (some (generateETag envOn.cryptoDigest (envOn.serialize ("fresh")))) envOn.now ∧
     (revalidateFinal envOn ("k") ("B") none swEmpty).notifications =
      swEmpty.notifications ++ [(("k"), ("fresh"))] ∧
     generateETag envOn.cryptoDigest (envOn.serialize ("fresh")) ≠ "") :=
  ⟨rfl, rfl, by decide,
    c10_theorem envOn ("k") ("B") swEmpty ("fresh") rfl rfl (by decide)⟩

/-- C6: storing a value with version `V` and fingerprint `F` under a key
and reading that key back (before any other write or version change)
returns exactly the stored value, version and fingerprint, stamped with
the write time. -/
theorem c6_theorem {Data : Type} (store : CacheStore Data) (key : String) (d : Data)
    (version F : String) (now : Nat) :
    getCachedRouteData (cacheRouteData store key d version (some F) now) key =
      some { url := key, data := d, version := version, timestamp := now, etag := some F } := by
  simp [getCachedRouteData, cacheRouteData, idbGet, idbPut, List.find?_cons]

/-- C7: an entry stored under version `A` is treated as absent by the
render path once the current version is `B ≠ A`: `renderWithCache` takes
the `fetchAndCache` MISS path, produces the same response as with the row
physically deleted, and invokes the loader; yet the raw row is still
returned by a direct `getCachedRouteData` lookup. -/
theorem c7_theorem {Data : Type} (env : SWEnv Data) (key : String) (s : SWState Data)
    (e : CachedRoute Data)
    (hrow : getCachedRouteData s.store key = some e)
    (hver : isVersionCompatible env e.version = false) :
    renderWithCache env key s = fetchAndCache env key (getAppVersion env) s ∧
    (renderWithCache env key s).1 =
      (renderWithCache env key { s with store := eraseEntry s.store key }).1 ∧
    (renderWithCache env key s).2.loaderCalls = s.loaderCalls + 1 ∧
    getCachedRouteData s.store key = some e := by
  have h1 : renderWithCache env key s = fetchAndCache env key (getAppVersion env) s := by
    simp [renderWithCache, hrow, hver]
  have h2 : renderWithCache env key { s with store := eraseEntry s.store key } =
      fetchAndCache env key (getAppVersion env) { s with store := eraseEntry s.store key } := by
    simp [renderWithCache, getCachedRouteData_eraseEntry]
  refine ⟨h1, ?_, ?_, hrow⟩
  · rw [h1, h2]
    cases hld : env.loaderResult with
    | error err => simp [fetchAndCache, hld]
    | ok d => simp [fetchAndCache, hld]
  · rw [h1]
    cases hld : env.loaderResult with
    | error err => simp [fetchAndCache, hld]
    | ok d => simp [fetchAndCache, hld]

/-- C7 witness: a concrete row stored under version `A` with current
version `B`: miss path taken while the raw row stays retrievable. -/
theorem c7_witness :
    getCachedRouteData swWithRow.store ("k") =
      some { url := "k", data := "old", version := "A", timestamp := 7, etag := none } ∧
    isVersionCompatible envOn ("A") = false ∧
    renderWithCache envOn ("k") swWithRow = fetchAndCache envOn ("k") (getAppVersion envOn) swWithRow :=
  ⟨by decide, by decide,
    (c7_theorem envOn ("k") swWithRow
      { url := "k", data := "old", version := "A", timestamp := 7, etag := none }
      (by decide) (by decide)).1⟩

/-- C3: a `navigate` call whose normalized URL already has a pending
navigation returns that very pending future and changes nothing — in
particular it starts no second fetch. -/
theorem c3_theorem (normalize : String → String) (url : String) (opts : NavOptions)
    (s : NavState) (p : Nat)
    (h : navLookup s.pending (normalize url) = some p) :
    navigate normalize url opts s = (p, s) ∧
    (navigate normalize url opts s).2.fetchesStarted = s.fetchesStarted := by
  have h1 : navigate normalize url opts s = (p, s) := by
    simp [navigate, h]
  exact ⟨h1, by rw [h1]⟩

/-- C3 witness: joining the pending navigation for url `a` yields the
original promise id 1 and an unchanged controller state. -/
theorem c3_witness :
    navLookup navTwoPending.pending (id ("a")) = some 1 ∧
    navigate id ("a") { replace := false } navTwoPending = (1, navTwoPending) :=
  ⟨by decide,
    (c3_theorem id ("a") { replace := false } navTwoPending 1 (by decide)).1⟩

/-- C8: the claim asserts that every `navigate` call with `replace` set
cancels every other pending navigation.  It fails when the normalized URL
is itself already pending: the join branch returns before the `replace`
handling, so nothing is cancelled — here `b` stays pending and nothing is
aborted. -/
theorem c8_counterexample :
    ({ replace := true } : NavOptions).replace = true ∧
    (navigate id ("a") { replace := true } navTwoPending).2 = navTwoPending ∧
    navLookup (navigate id ("a") { replace := true } navTwoPending).2.pending ("b") = some 2 ∧
    (navigate id ("a") { replace := true } navTwoPending).2.aborted = [] := by
  decide

/-- C8 (amended): a `navigate(url, {replace: true})` call whose normalized
URL is not already pending cancels every other pending navigation before
proceeding: afterwards the pending and active maps hold exactly the new
navigation and every previously active abort handle has been invoked.
When the URL is already pending, the call joins it and cancels nothing. -/
theorem c8_theorem (normalize : String → String) (url : String) (s : NavState)
    (h : navLookup s.pending (normalize url) = none) :
    (navigate normalize url { replace := true } s).2.pending =
      [(normalize url, s.nextId + 1)] ∧
    (navigate normalize url { replace := true } s).2.activeRequests =
      [(normalize url, s.nextId)] ∧
    (navigate normalize url { replace := true } s).2.aborted =
      s.aborted ++ s.activeRequests.map (fun q => q.2) := by
  refine ⟨?_, ?_, ?_⟩ <;> simp [navigate, h, cancelAll, addToHistory]

/-- C8 witness: a fresh url `c` with `replace` set: both old navigations
are removed from the maps and their abort handles invoked. -/
theorem c8_witness :
    navLookup navTwoPending.pending (id ("c")) = none ∧
    ((navigate id ("c") { replace := true } navTwoPending).2.pending =
      [(id ("c"), navTwoPending.nextId + 1)] ∧
     (navigate id ("c") { replace := true } navTwoPending).2.activeRequests =
      [(id ("c"), navTwoPending.nextId)] ∧
     (navigate id ("c") { replace := true } navTwoPending).2.aborted =
      navTwoPending.aborted ++ navTwoPending.activeRequests.map (fun q => q.2)) :=
  ⟨by decide, c8_theorem id ("c") navTwoPending (by decide)⟩

/-- C9: the claim asserts the prefetch pending-map entry is evicted after
a fixed 5 s window from the START of the prefetch, regardless of
completion.  In the code the eviction timer starts inside the `finally`
handler, i.e. at settlement: for a prefetch started at 0 whose fetch
settles at 7000, the entry is still pending at 6000 (past the claimed
window) and persists until 12000. -/
theorem c9_counterexample :
    prefetchPendingAt 0 7000 6000 = true ∧
    0 + 5000 < 6000 ∧
    prefetchPendingAt 0 7000 11999 = true ∧
    prefetchPendingAt 0 7000 12000 = false := by
  decide

/-- C9 (amended): the entry a prefetch registers in the pending map is
present exactly from the prefetch start until 5 seconds after the
underlying fetch settles — the grace window is measured from settlement,
not from the start of the prefetch. -/
theorem c9_theorem (t0 latency t : Nat) :
    prefetchPendingAt t0 latency t = true ↔ (t0 ≤ t ∧ t < t0 + latency + 5000) := by
  simp only [prefetchPendingAt, prefetchEvents, List.foldl]
  by_cases h1 : t0 ≤ t <;> by_cases h2 : t0 + latency ≤ t <;>
    by_cases h3 : t0 + latency + 5000 ≤ t <;>
    simp [h1, h2, h3, prefetchApply] <;> omega

end WorkerRender
